import Mathlib

/-!
Verification of the entity-resolution and action-dispatch core of the
Dharvis task/calendar assistant.

The development shallowly embeds the record store (`src/database.py`) and
the action dispatcher (`TelegramHandler._execute_action` in
`src/telegram_handler.py`).  Rows of the SQLite `tasks` and `events`
tables are modelled as Lean structures, a table as a `List` of rows in
rowid (insertion) order.  SQL statements are modelled row by row:

* `SELECT ... WHERE p` with `fetchone` and no `ORDER BY` returns the
  first row in table order satisfying `p` (`List.find?`);
* `SELECT ... WHERE p ORDER BY k` with `fetchone` returns the first row
  in table order among those minimal for `k` (`firstMinBy`);
* `UPDATE`/`DELETE` map/filter the row list, and `cursor.rowcount > 0`
  is `List.any` of the `WHERE` predicate;
* SQLite `LOWER` and Python `str.lower` are both modelled as ASCII
  lowercasing (`lowerStr`), `LIKE` by `likeMatch` (with its `%`/`_`
  wildcard semantics), `length()` by `String.length`, and text
  comparison (`<=`, `ORDER BY`) by the order on `String`.

Faults of the storage layer are modelled by an `Oracle` that decides, per
store call within one dispatch, whether the call raises; the dispatcher's
`try/except` is the `Except` handler in `execute_action_o`.
-/

namespace Dharvis

/-- A row of the `tasks` table (`src/database.py`, `init_db`). -/
structure Task where
  id : Nat
  title : String
  description : Option String
  deadline : Option String
  priority : String
  status : String
  created_at : String
  completed_at : Option String
deriving Repr, DecidableEq

/-- A row of the `events` table (`src/database.py`, `init_db`). -/
structure Event where
  id : Nat
  title : String
  description : Option String
  start_time : Option String
  end_time : Option String
  location : Option String
  created_at : String
  source : String
deriving Repr, DecidableEq

/-- ASCII lowercasing of one character, as both SQLite `LOWER` and
(the ASCII fragment of) Python `str.lower` perform. -/
def lowerChar (c : Char) : Char :=
  if 65 ≤ c.toNat ∧ c.toNat ≤ 90 then Char.ofNat (c.toNat + 32) else c

/-- ASCII lowercasing of a string. -/
def lowerStr (s : String) : String := ⟨s.data.map lowerChar⟩

/-- `prefixOf q s`: the character list `q` is a prefix of `s`. -/
def prefixOf : List Char → List Char → Bool
  | [], _ => true
  | _ :: _, [] => false
  | a :: q, c :: s => a == c && prefixOf q s

/-- `substringOf q s`: `q` occurs contiguously inside `s`
(plain substring containment, no wildcards). -/
def substringOf (q : List Char) : List Char → Bool
  | [] => prefixOf q []
  | c :: s => prefixOf q (c :: s) || substringOf q s

/-- `likeSuffix f s` holds when `f` accepts some suffix of `s`
(including `s` itself and `[]`); used for the `%` wildcard. -/
def likeSuffix (f : List Char → Bool) : List Char → Bool
  | [] => f []
  | c :: s => f (c :: s) || likeSuffix f s

/-- SQLite `LIKE` pattern matching on character lists: `%` matches any
(possibly empty) sequence, `_` matches exactly one character, any other
pattern character matches itself. -/
def likeMatch : List Char → List Char → Bool
  | [] => fun s => s.isEmpty
  | a :: p => fun s =>
      if a == '%' then likeSuffix (likeMatch p) s
      else
        match s with
        | [] => false
        | c :: s' => if a == '_' then likeMatch p s' else a == c && likeMatch p s'

/-- The `LIKE` comparison performed by `fuzzy_match_task` /
`fuzzy_match_event`: the stored (lowercased) title is matched against the
pattern `"%" + query + "%"`. -/
def sqlLikeSub (q s : String) : Bool :=
  likeMatch ('%' :: (q.data ++ ['%'])) s.data

/-- `q` contains no `LIKE` wildcard character. -/
def noWild (q : List Char) : Bool :=
  q.all fun c => c != '%' && c != '_'

/-- First row in table order among those minimal for the strict ranking
`lt`; models `SELECT ... ORDER BY ... LIMIT`-style `fetchone` after an
`ORDER BY`. -/
def firstMinBy {α : Type} (lt : α → α → Bool) (l : List α) : Option α :=
  l.foldl
    (fun acc t =>
      match acc with
      | none => some t
      | some b => if lt t b then some t else some b)
    none

/-- Strict ranking used by the `ORDER BY` of `fuzzy_match_task`'s
substring phase: exact (lowercased) title match first, then shorter
title first. -/
def taskRankLt (ql : String) (a b : Task) : Bool :=
  let ka : Nat := if lowerStr a.title == ql then 0 else 1
  let kb : Nat := if lowerStr b.title == ql then 0 else 1
  ka < kb || (ka == kb && a.title.length < b.title.length)

/-- Strict lexicographic order on character lists, modelling SQLite's
`BINARY` text collation (byte order of UTF-8 agrees with code-point
order on valid strings). -/
def lexLtB : List Char → List Char → Bool
  | [], [] => false
  | [], _ :: _ => true
  | _ :: _, [] => false
  | a :: as, b :: bs => decide (a < b) || (a == b && lexLtB as bs)

/-- Reflexive lexicographic order on character lists (SQLite `<=` on
text). -/
def lexLeB : List Char → List Char → Bool
  | [], _ => true
  | _ :: _, [] => false
  | a :: as, b :: bs => decide (a < b) || (a == b && lexLeB as bs)

/-- SQLite `<=` on text values. -/
def strLeB (a b : String) : Bool := lexLeB a.data b.data

/-- Comparison of nullable `start_time` text values under SQLite ordering
(`NULL` sorts below every string). -/
def optStrLt : Option String → Option String → Bool
  | none, none => false
  | none, some _ => true
  | some _, none => false
  | some a, some b => lexLtB a.data b.data

/-- Strict ranking used by the `ORDER BY` of `fuzzy_match_event`'s
substring phase: exact (lowercased) title match first, then most recent
`start_time` first (descending; `NULL` last). -/
def eventRankLt (ql : String) (a b : Event) : Bool :=
  let ka : Nat := if lowerStr a.title == ql then 0 else 1
  let kb : Nat := if lowerStr b.title == ql then 0 else 1
  ka < kb || (ka == kb && optStrLt b.start_time a.start_time)

/-- `Database.fuzzy_match_task` (`src/database.py` lines 265-302): first
an exact lowercased-title match among pending tasks; otherwise a `LIKE
'%query%'` match among pending tasks, ordered by exact-match-first then
`length(title)`, first row returned. -/
def fuzzy_match_task (title : String) (ts : List Task) : Option Task :=
  let ql := lowerStr title
  match ts.find? (fun t => lowerStr t.title == ql && t.status == "pending") with
  | some t => some t
  | none =>
      firstMinBy (taskRankLt ql)
        (ts.filter fun t => sqlLikeSub ql (lowerStr t.title) && t.status == "pending")

/-- `Database.fuzzy_match_event` (`src/database.py` lines 457-490): like
`fuzzy_match_task` but over all events (no status filter) and with the
substring phase ordered by exact-match-first then `start_time DESC`. -/
def fuzzy_match_event (title : String) (evs : List Event) : Option Event :=
  let ql := lowerStr title
  match evs.find? (fun e => lowerStr e.title == ql) with
  | some e => some e
  | none =>
      firstMinBy (eventRankLt ql)
        (evs.filter fun e => sqlLikeSub ql (lowerStr e.title))

/-- Modelled from the spec's words for `fuzzy_match_task(query)`:
phase 1 returns the first pending task whose title equals the query
case-insensitively; phase 2 returns, among pending tasks whose
lowercased title contains the lowercased query as a plain substring, the
best-ranked under exact-match-first then shortest-title-first; absent
otherwise. -/
def specFuzzyMatchTask (query : String) (ts : List Task) : Option Task :=
  let ql := lowerStr query
  match ts.find? (fun t => lowerStr t.title == ql && t.status == "pending") with
  | some t => some t
  | none =>
      firstMinBy (taskRankLt ql)
        (ts.filter fun t => substringOf ql.data (lowerStr t.title).data && t.status == "pending")

/-- Modelled from the spec's words for the event-side fuzzy match: no
status filter (all stored events are considered); phase 1 exact
case-insensitive title equality, phase 2 substring containment ranked by
exact-match-first then most-recent-start-time-first (descending). -/
def specFuzzyMatchEvent (query : String) (evs : List Event) : Option Event :=
  let ql := lowerStr query
  match evs.find? (fun e => lowerStr e.title == ql) with
  | some e => some e
  | none =>
      firstMinBy (eventRankLt ql)
        (evs.filter fun e => substringOf ql.data (lowerStr e.title).data)

/-- Python truthiness of an optional integer parameter (`if task_id:`):
`None` and `0` are falsy.  The result is the value normalised to
`none` when falsy. -/
def truthyNat : Option Nat → Option Nat
  | none => none
  | some n => if n = 0 then none else some n

/-- Python truthiness of an optional string parameter (`if title:`):
`None` and `""` are falsy. -/
def truthyStr : Option String → Option String
  | none => none
  | some s => if s = "" then none else some s

/-- Next `AUTOINCREMENT` rowid for the `tasks` table. -/
def nextTaskId (ts : List Task) : Nat :=
  ts.foldl (fun m t => max m t.id) 0 + 1

/-- `Database.add_task` (`src/database.py` lines 68-100): insert a row
with `status='pending'`, `created_at=now`, `completed_at` NULL; returns
the new id. -/
def add_task (ts : List Task) (now : String) (title : String)
    (deadline : Option String) (priority : String)
    (description : Option String) : Nat × List Task :=
  let i := nextTaskId ts
  (i, ts ++ [⟨i, title, description, deadline, priority, "pending", now, none⟩])

/-- The `UPDATE tasks SET status='completed', completed_at=? WHERE id=?
AND status='pending'` statement shared by both branches of
`Database.complete_task`, together with its `rowcount > 0`. -/
def completeById (ts : List Task) (now : String) (tid : Nat) : Bool × List Task :=
  (ts.any (fun t => t.id == tid && t.status == "pending"),
   ts.map fun t =>
     if t.id == tid && t.status == "pending" then
       { t with status := "completed", completed_at := some now }
     else t)

/-- `Database.complete_task` (`src/database.py` lines 162-202): by id if
the id parameter is truthy, else by fuzzy title match if the title
parameter is truthy, else `False`. -/
def complete_task (ts : List Task) (now : String)
    (task_id : Option Nat) (title : Option String) : Bool × List Task :=
  match truthyNat task_id with
  | some tid => completeById ts now tid
  | none =>
      match truthyStr title with
      | some ttl =>
          match fuzzy_match_task ttl ts with
          | none => (false, ts)
          | some t => completeById ts now t.id
      | none => (false, ts)

/-- The `DELETE FROM tasks WHERE id = ?` statement of
`Database.delete_task`, with its `rowcount > 0`. -/
def deleteTaskById (ts : List Task) (tid : Nat) : Bool × List Task :=
  (ts.any (fun t => t.id == tid), ts.filter fun t => !(t.id == tid))

/-- `Database.delete_task` (`src/database.py` lines 204-232):
unconditional delete by id if truthy, else by fuzzy title match. -/
def delete_task (ts : List Task) (task_id : Option Nat)
    (title : Option String) : Bool × List Task :=
  match truthyNat task_id with
  | some tid => deleteTaskById ts tid
  | none =>
      match truthyStr title with
      | some ttl =>
          match fuzzy_match_task ttl ts with
          | none => (false, ts)
          | some t => deleteTaskById ts t.id
      | none => (false, ts)

/-- The field names `Database.update_task` recognises. -/
def allowedTaskFields : List String :=
  ["title", "description", "deadline", "priority", "status"]

/-- Application of one `SET k = v` pair of `Database.update_task` to a
task row.  Keys outside the allow-list never reach this point. -/
def applyTaskField (t : Task) (kv : String × String) : Task :=
  if kv.1 = "title" then { t with title := kv.2 }
  else if kv.1 = "description" then { t with description := some kv.2 }
  else if kv.1 = "deadline" then { t with deadline := some kv.2 }
  else if kv.1 = "priority" then { t with priority := kv.2 }
  else if kv.1 = "status" then { t with status := kv.2 }
  else t

/-- `Database.update_task` (`src/database.py` lines 234-263): keep only
recognised fields; an empty update set returns `False` with no write;
otherwise one `UPDATE ... WHERE id = ?`, success iff a row matched. -/
def update_task (ts : List Task) (tid : Nat)
    (fields : List (String × String)) : Bool × List Task :=
  let updates := fields.filter fun kv => allowedTaskFields.contains kv.1
  if updates.isEmpty then (false, ts)
  else
    (ts.any (fun t => t.id == tid),
     ts.map fun t => if t.id == tid then updates.foldl applyTaskField t else t)

/-- Ordering relation of `ORDER BY deadline ASC` (SQLite text
comparison; the rows sorted all have non-NULL deadlines). -/
def dueLe (a b : Task) : Prop :=
  strLeB (a.deadline.getD "") (b.deadline.getD "") = true

instance : DecidableRel dueLe := fun a b =>
  inferInstanceAs (Decidable (strLeB (a.deadline.getD "") (b.deadline.getD "") = true))

/-- `Database.get_tasks_due_by` (`src/database.py` lines 137-160):
`SELECT * FROM tasks WHERE status = 'pending' AND deadline <= ? ORDER BY
deadline ASC` (a NULL deadline satisfies no SQL comparison). -/
def get_tasks_due_by (cutoff : String) (ts : List Task) : List Task :=
  List.insertionSort dueLe
    (ts.filter fun t =>
      t.status == "pending" &&
        match t.deadline with
        | some d => strLeB d cutoff
        | none => false)

/-- Next `AUTOINCREMENT` rowid for the `events` table. -/
def nextEventId (evs : List Event) : Nat :=
  evs.foldl (fun m e => max m e.id) 0 + 1

/-- `Database.add_event` (`src/database.py` lines 306-344). -/
def add_event (evs : List Event) (now : String) (title : String)
    (start_time : Option String) (end_time : Option String)
    (location : Option String) (description : Option String) :
    Nat × List Event :=
  let i := nextEventId evs
  (i, evs ++ [⟨i, title, description, start_time, end_time, location, now, "bot"⟩])

/-- The `DELETE FROM events WHERE id = ?` statement of
`Database.delete_event`, with its `rowcount > 0`. -/
def deleteEventById (evs : List Event) (eid : Nat) : Bool × List Event :=
  (evs.any (fun e => e.id == eid), evs.filter fun e => !(e.id == eid))

/-- `Database.delete_event` (`src/database.py` lines 393-421). -/
def delete_event (evs : List Event) (event_id : Option Nat)
    (title : Option String) : Bool × List Event :=
  match truthyNat event_id with
  | some eid => deleteEventById evs eid
  | none =>
      match truthyStr title with
      | some ttl =>
          match fuzzy_match_event ttl evs with
          | none => (false, evs)
          | some e => deleteEventById evs e.id
      | none => (false, evs)

/-- The field names `Database.update_event` recognises. -/
def allowedEventFields : List String :=
  ["title", "description", "start_time", "end_time", "location"]

/-- Application of one `SET k = v` pair of `Database.update_event` to an
event row. -/
def applyEventField (e : Event) (kv : String × String) : Event :=
  if kv.1 = "title" then { e with title := kv.2 }
  else if kv.1 = "description" then { e with description := some kv.2 }
  else if kv.1 = "start_time" then { e with start_time := some kv.2 }
  else if kv.1 = "end_time" then { e with end_time := some kv.2 }
  else if kv.1 = "location" then { e with location := some kv.2 }
  else e

/-- `Database.update_event` (`src/database.py` lines 423-455). -/
def update_event (evs : List Event) (eid : Nat)
    (fields : List (String × String)) : Bool × List Event :=
  let updates := fields.filter fun kv => allowedEventFields.contains kv.1
  if updates.isEmpty then (false, evs)
  else
    (evs.any (fun e => e.id == eid),
     evs.map fun e => if e.id == eid then updates.foldl applyEventField e else e)

/-- The eight classified intents (`ActionType` in `src/claude_agent.py`). -/
inductive ActionType
  | ADD_TASK
  | ADD_EVENT
  | COMPLETE_TASK
  | DELETE_TASK
  | DELETE_EVENT
  | MODIFY_TASK
  | MODIFY_EVENT
  | QUERY
deriving Repr, DecidableEq

/-- The loosely-typed parameter bag of a classified action, with one
optional slot per key the dispatcher reads (`params.get(...)` in
`TelegramHandler._execute_action`); a missing key is `none`. -/
structure Params where
  title : Option String := none
  deadline : Option String := none
  priority : Option String := none
  description : Option String := none
  start_time : Option String := none
  end_time : Option String := none
  location : Option String := none
  id : Option Nat := none
  task_id : Option Nat := none
  task_title : Option String := none
  event_id : Option Nat := none
  event_title : Option String := none
  new_title : Option String := none
  new_deadline : Option String := none
  new_priority : Option String := none
  new_start_time : Option String := none
  new_end_time : Option String := none
  new_location : Option String := none
deriving Repr, DecidableEq

/-- A classified action (`AgentResponse` in `src/claude_agent.py`,
without the raw transcript). -/
structure AgentResponse where
  action : ActionType
  params : Params
  message : String
deriving Repr, DecidableEq

/-- The persisted store: the `tasks` and `events` tables. -/
structure DB where
  tasks : List Task
  events : List Event
deriving Repr, DecidableEq

/-- Decides, per store call within one dispatch (numbered in program
order from 0), whether that call raises a storage fault. -/
def Oracle : Type := Nat → Bool

/-- One store call during dispatch: call number `k` either raises
(propagating the store state it was entered with) or returns `a`. -/
def callO {α : Type} (o : Oracle) (k : Nat) (db : DB) (a : α) : Except DB α :=
  if o k then Except.error db else Except.ok a

/-- The fixed message of the dispatcher's catch-all handler. -/
def genericErrorMsg : String := "Something went wrong processing that. Try again?"

/-- The sparse update set the MODIFY_TASK branch builds from whichever
of `new_title` / `new_deadline` / `new_priority` are truthy. -/
def modifyTaskUpdates (p : Params) : List (String × String) :=
  (match truthyStr p.new_title with
   | some v => [("title", v)]
   | none => []) ++
  (match truthyStr p.new_deadline with
   | some v => [("deadline", v)]
   | none => []) ++
  (match truthyStr p.new_priority with
   | some v => [("priority", v)]
   | none => [])

/-- The sparse update set the MODIFY_EVENT branch builds. -/
def modifyEventUpdates (p : Params) : List (String × String) :=
  (match truthyStr p.new_title with
   | some v => [("title", v)]
   | none => []) ++
  (match truthyStr p.new_start_time with
   | some v => [("start_time", v)]
   | none => []) ++
  (match truthyStr p.new_end_time with
   | some v => [("end_time", v)]
   | none => []) ++
  (match truthyStr p.new_location with
   | some v => [("location", v)]
   | none => [])

/-- Target resolution of the MODIFY_TASK branch: the `task_id` parameter
if truthy; else, if `task_title` is truthy, a fuzzy match (store call 0)
whose result id is then itself subject to the `if task_id:` truthiness
check; else unresolved. -/
def resolveModifyTask (o : Oracle) (p : Params) (db : DB) :
    Except DB (Option Nat) :=
  match truthyNat p.task_id with
  | some tid => Except.ok (some tid)
  | none =>
      match truthyStr p.task_title with
      | some ttl =>
          match callO o 0 db (fuzzy_match_task ttl db.tasks) with
          | Except.error db' => Except.error db'
          | Except.ok (some tk) => Except.ok (truthyNat (some tk.id))
          | Except.ok none => Except.ok none
      | none => Except.ok none

/-- Target resolution of the MODIFY_EVENT branch. -/
def resolveModifyEvent (o : Oracle) (p : Params) (db : DB) :
    Except DB (Option Nat) :=
  match truthyNat p.event_id with
  | some eid => Except.ok (some eid)
  | none =>
      match truthyStr p.event_title with
      | some ttl =>
          match callO o 0 db (fuzzy_match_event ttl db.events) with
          | Except.error db' => Except.error db'
          | Except.ok (some ev) => Except.ok (truthyNat (some ev.id))
          | Except.ok none => Except.ok none
      | none => Except.ok none

/-- The MODIFY_TASK branch of `TelegramHandler._execute_action`
(`src/telegram_handler.py` lines 261-282). -/
def execModifyTask (o : Oracle) (p : Params) (msg : String) (db : DB) :
    Except DB (String × DB) :=
  match resolveModifyTask o p db with
  | Except.error db' => Except.error db'
  | Except.ok (some tid) =>
      let updates := modifyTaskUpdates p
      if updates.isEmpty then Except.ok (msg, db)
      else
        match callO o 1 db (update_task db.tasks tid updates) with
        | Except.error db' => Except.error db'
        | Except.ok r =>
            if r.1 then Except.ok (msg, { db with tasks := r.2 })
            else Except.ok ("Couldn't update that task. Can you try again?",
              { db with tasks := r.2 })
  | Except.ok none =>
      Except.ok ("Couldn't find that task to modify. Can you be more specific?", db)

/-- The MODIFY_EVENT branch of `TelegramHandler._execute_action`
(`src/telegram_handler.py` lines 284-307). -/
def execModifyEvent (o : Oracle) (p : Params) (msg : String) (db : DB) :
    Except DB (String × DB) :=
  match resolveModifyEvent o p db with
  | Except.error db' => Except.error db'
  | Except.ok (some eid) =>
      let updates := modifyEventUpdates p
      if updates.isEmpty then Except.ok (msg, db)
      else
        match callO o 1 db (update_event db.events eid updates) with
        | Except.error db' => Except.error db'
        | Except.ok r =>
            if r.1 then Except.ok (msg, { db with events := r.2 })
            else Except.ok ("Couldn't update that event. Can you try again?",
              { db with events := r.2 })
  | Except.ok none =>
      Except.ok ("Couldn't find that event to modify. Can you be more specific?", db)

/-- The body of `TelegramHandler._execute_action` inside its `try`
(`src/telegram_handler.py` lines 206-315): one branch per action kind,
each consulting the fault oracle at every store call. -/
def execBody (o : Oracle) (resp : AgentResponse) (now : String) (db : DB) :
    Except DB (String × DB) :=
  match resp.action with
  | ActionType.ADD_TASK =>
      match callO o 0 db
        (add_task db.tasks now (resp.params.title.getD "Untitled task")
          resp.params.deadline (resp.params.priority.getD "medium")
          resp.params.description) with
      | Except.error db' => Except.error db'
      | Except.ok r => Except.ok (resp.message, { db with tasks := r.2 })
  | ActionType.ADD_EVENT =>
      match callO o 0 db
        (add_event db.events now (resp.params.title.getD "Untitled event")
          resp.params.start_time resp.params.end_time resp.params.location
          resp.params.description) with
      | Except.error db' => Except.error db'
      | Except.ok r => Except.ok (resp.message, { db with events := r.2 })
  | ActionType.COMPLETE_TASK =>
      match callO o 0 db
        (complete_task db.tasks now resp.params.task_id resp.params.task_title) with
      | Except.error db' => Except.error db'
      | Except.ok r =>
          if r.1 then Except.ok (resp.message, { db with tasks := r.2 })
          else
            Except.ok ("Couldn't find that task to mark complete. Can you be more specific?",
              { db with tasks := r.2 })
  | ActionType.DELETE_TASK =>
      match callO o 0 db (delete_task db.tasks resp.params.id resp.params.title) with
      | Except.error db' => Except.error db'
      | Except.ok r =>
          if r.1 then Except.ok (resp.message, { db with tasks := r.2 })
          else
            Except.ok ("Couldn't find that task to delete. Can you be more specific?",
              { db with tasks := r.2 })
  | ActionType.DELETE_EVENT =>
      match callO o 0 db (delete_event db.events resp.params.id resp.params.title) with
      | Except.error db' => Except.error db'
      | Except.ok r =>
          if r.1 then Except.ok (resp.message, { db with events := r.2 })
          else
            Except.ok ("Couldn't find that event to delete. Can you be more specific?",
              { db with events := r.2 })
  | ActionType.MODIFY_TASK => execModifyTask o resp.params resp.message db
  | ActionType.MODIFY_EVENT => execModifyEvent o resp.params resp.message db
  | ActionType.QUERY => Except.ok (resp.message, db)

/-- `TelegramHandler._execute_action` under a fault oracle: the `try`
body with its catch-all `except` clause, which converts any storage
fault into the single generic message.  Always returns a reply string
(and the store as left by the completed calls). -/
def execute_action_o (o : Oracle) (resp : AgentResponse) (now : String)
    (db : DB) : String × DB :=
  match execBody o resp now db with
  | Except.ok r => r
  | Except.error db' => (genericErrorMsg, db')

/-- The oracle under which no store call faults. -/
def noFault : Oracle := fun _ => false

/-- `TelegramHandler._execute_action` on a healthy store. -/
def execute_action (resp : AgentResponse) (now : String) (db : DB) :
    String × DB :=
  execute_action_o noFault resp now db

theorem likeSuffix_congr {f g : List Char → Bool} (h : ∀ t, f t = g t) :
    ∀ s, likeSuffix f s = likeSuffix g s
  | [] => by simp [likeSuffix, h]
  | c :: s => by simp [likeSuffix, h, likeSuffix_congr h s]

theorem likeSuffix_empty : ∀ s, likeSuffix (fun t => t.isEmpty) s = true
  | [] => rfl
  | _ :: s => by simp [likeSuffix, likeSuffix_empty s]

theorem likeMatch_append_pct (q : List Char) (hq : ∀ c ∈ q, c ≠ '%' ∧ c ≠ '_') :
    ∀ s, likeMatch (q ++ ['%']) s = prefixOf q s := by
  induction q with
  | nil => intro s; simp [likeMatch, prefixOf, likeSuffix_empty s]
  | cons a q ih =>
    intro s
    have ha := hq a (List.mem_cons_self a q)
    have hq' : ∀ c ∈ q, c ≠ '%' ∧ c ≠ '_' := fun c hc => hq c (List.mem_cons_of_mem a hc)
    have ha1 : (a == '%') = false := by simp [ha.1]
    have ha2 : (a == '_') = false := by simp [ha.2]
    cases s with
    | nil => simp [likeMatch, prefixOf, ha1, ha2]
    | cons c s' => simp [likeMatch, prefixOf, ha1, ha2, ih hq' s']

theorem likeSuffix_prefixOf (q : List Char) :
    ∀ s, likeSuffix (prefixOf q) s = substringOf q s
  | [] => rfl
  | c :: s => by simp [likeSuffix, substringOf, likeSuffix_prefixOf q s]

theorem likeMatch_pct_wrap (q : List Char) (hq : ∀ c ∈ q, c ≠ '%' ∧ c ≠ '_')
    (s : List Char) : likeMatch ('%' :: (q ++ ['%'])) s = substringOf q s := by
  have h1 : likeMatch ('%' :: (q ++ ['%'])) s = likeSuffix (likeMatch (q ++ ['%'])) s := by
    simp [likeMatch]
  rw [h1, likeSuffix_congr (likeMatch_append_pct q hq), likeSuffix_prefixOf]

theorem sqlLikeSub_eq_substring (q s : String) (hq : noWild q.data = true) :
    sqlLikeSub q s = substringOf q.data s.data := by
  have h : ∀ c ∈ q.data, c ≠ '%' ∧ c ≠ '_' := by
    intro c hc
    have hv := List.all_eq_true.mp hq c hc
    simp only [Bool.and_eq_true, bne_iff_ne, ne_eq] at hv
    exact hv
  simpa [sqlLikeSub] using likeMatch_pct_wrap q.data h s.data

/-- C2 (amended): for every query string whose lowercased form contains
no `LIKE` wildcard character (`%`, `_`), `fuzzy_match_task` behaves
exactly as the spec describes: case-insensitive, phase 1 first exact
pending title match, phase 2 best substring match under
exact-match-first then shortest-title-first, absent otherwise. -/
theorem C2_fuzzy_match_task_two_phase (q : String) (ts : List Task)
    (hq : noWild (lowerStr q).data = true) :
    fuzzy_match_task q ts = specFuzzyMatchTask q ts := by
  have hp : (fun t : Task =>
        sqlLikeSub (lowerStr q) (lowerStr t.title) && t.status == "pending")
      = (fun t : Task =>
        substringOf (lowerStr q).data (lowerStr t.title).data && t.status == "pending") := by
    funext t
    rw [sqlLikeSub_eq_substring _ _ hq]
  simp only [fuzzy_match_task, specFuzzyMatchTask, hp]

/-- C2 witness: the amended theorem applied to the spec's own example
(two pending tasks, exact-title tie-break). -/
theorem C2_fuzzy_match_task_two_phase_witness :
    noWild (lowerStr "math homework").data = true ∧
      fuzzy_match_task "math homework"
          [⟨1, "Math Homework Assignment", none, none, "medium", "pending", "c", none⟩,
           ⟨2, "Math Homework", none, none, "medium", "pending", "c", none⟩] =
        specFuzzyMatchTask "math homework"
          [⟨1, "Math Homework Assignment", none, none, "medium", "pending", "c", none⟩,
           ⟨2, "Math Homework", none, none, "medium", "pending", "c", none⟩] :=
  ⟨by decide, C2_fuzzy_match_task_two_phase "math homework" _ (by decide)⟩

/-- C2 counterexample: at the query `"%"` (a `LIKE` wildcard) the code
matches a pending task titled `"Math"`, although `"math"` does not
contain `"%"` as a substring, so the claim's universally quantified
substring-containment description fails. -/
theorem C2_fuzzy_match_task_counterexample :
    fuzzy_match_task "%" [⟨1, "Math", none, none, "medium", "pending", "c", none⟩] =
        some ⟨1, "Math", none, none, "medium", "pending", "c", none⟩ ∧
      specFuzzyMatchTask "%" [⟨1, "Math", none, none, "medium", "pending", "c", none⟩] =
        none := by
  decide

/-- C3 (amended): for every query string whose lowercased form contains
no `LIKE` wildcard character, `fuzzy_match_event` behaves exactly as the
spec-worded `specFuzzyMatchEvent`: no status filter (it ranges over all
stored events) and, after the exact-match-first rule, a substring phase
ranked by most-recent-start-time-first (`start_time` descending);
moreover the tie-break differs from the task-side shortest-title-first
rule: on identically titled stores the event side picks the most recent
match while the task side picks the shortest title.  For queries
containing a wildcard the unescaped `LIKE` pattern diverges from the
substring-phase description, as on the task side. -/
theorem C3_fuzzy_match_event_ranking :
    (∀ (q : String) (evs : List Event), noWild (lowerStr q).data = true →
        fuzzy_match_event q evs = specFuzzyMatchEvent q evs) ∧
      fuzzy_match_event "standup"
          [⟨1, "Team Standup Old", none, some "2024-01-05T10:00:00", none, none, "c", "bot"⟩,
           ⟨2, "Standup Weekly Review Meeting", none, some "2026-01-05T10:00:00", none, none, "c", "bot"⟩] =
        some ⟨2, "Standup Weekly Review Meeting", none, some "2026-01-05T10:00:00", none, none, "c", "bot"⟩ ∧
      fuzzy_match_task "standup"
          [⟨1, "Team Standup Old", none, none, "medium", "pending", "c", none⟩,
           ⟨2, "Standup Weekly Review Meeting", none, none, "medium", "pending", "c", none⟩] =
        some ⟨1, "Team Standup Old", none, none, "medium", "pending", "c", none⟩ := by
  refine ⟨fun q evs hq => ?_, by decide, by decide⟩
  have hp : (fun e : Event => sqlLikeSub (lowerStr q) (lowerStr e.title))
      = (fun e : Event => substringOf (lowerStr q).data (lowerStr e.title).data) := by
    funext e
    rw [sqlLikeSub_eq_substring _ _ hq]
  simp only [fuzzy_match_event, specFuzzyMatchEvent, hp]

/-- C3 counterexample: at the query `"%"` (a `LIKE` wildcard) the code
matches a stored event titled `"Math Club"`, although `"math club"` does
not contain `"%"` as a substring, so the claim's universally quantified
substring-phase description fails on the event side too. -/
theorem C3_fuzzy_match_event_counterexample :
    fuzzy_match_event "%"
        [⟨1, "Math Club", none, some "2025-01-01T10:00:00", none, none, "c", "bot"⟩] =
        some ⟨1, "Math Club", none, some "2025-01-01T10:00:00", none, none, "c", "bot"⟩ ∧
      specFuzzyMatchEvent "%"
          [⟨1, "Math Club", none, some "2025-01-01T10:00:00", none, none, "c", "bot"⟩] =
        none := by
  decide

/-- C3 witness: the universally quantified part applied to a concrete
wildcard-free query over a two-event store. -/
theorem C3_fuzzy_match_event_ranking_witness :
    noWild (lowerStr "standup").data = true ∧
      fuzzy_match_event "standup"
          [⟨1, "Team Standup Old", none, some "2024-01-05T10:00:00", none, none, "c", "bot"⟩,
           ⟨2, "Standup Weekly Review Meeting", none, some "2026-01-05T10:00:00", none, none, "c", "bot"⟩] =
        specFuzzyMatchEvent "standup"
          [⟨1, "Team Standup Old", none, some "2024-01-05T10:00:00", none, none, "c", "bot"⟩,
           ⟨2, "Standup Weekly Review Meeting", none, some "2026-01-05T10:00:00", none, none, "c", "bot"⟩] :=
  ⟨by decide, C3_fuzzy_match_event_ranking.1 "standup" _ (by decide)⟩

theorem firstMinBy_aux_mem {α : Type} (lt : α → α → Bool) :
    ∀ (l : List α) (acc : Option α) (t : α),
      l.foldl
          (fun acc t => match acc with
            | none => some t
            | some b => if lt t b then some t else some b)
          acc = some t →
        t ∈ l ∨ acc = some t := by
  intro l
  induction l with
  | nil => intro acc t h; exact Or.inr h
  | cons c l ih =>
    intro acc t h
    rcases ih _ t h with h1 | h1
    · exact Or.inl (List.mem_cons_of_mem c h1)
    · cases acc with
      | none =>
        simp only [Option.some.injEq] at h1
        exact Or.inl (h1 ▸ List.mem_cons_self c l)
      | some b =>
        by_cases hlt : lt c b
        · simp only [hlt, if_true, Option.some.injEq] at h1
          exact Or.inl (h1 ▸ List.mem_cons_self c l)
        · simp only [hlt, Bool.false_eq_true, if_false, Option.some.injEq] at h1
          exact Or.inr (by rw [h1])

theorem firstMinBy_mem {α : Type} (lt : α → α → Bool) (l : List α) (t : α)
    (h : firstMinBy lt l = some t) : t ∈ l := by
  rcases firstMinBy_aux_mem lt l none t h with h1 | h1
  · exact h1
  · exact absurd h1 (by simp)

theorem fuzzy_match_task_mem (q : String) (ts : List Task) (t : Task)
    (h : fuzzy_match_task q ts = some t) : t ∈ ts ∧ t.status = "pending" := by
  simp only [fuzzy_match_task] at h
  cases hf : ts.find? (fun u => lowerStr u.title == lowerStr q && u.status == "pending") with
  | some u =>
    rw [hf] at h
    simp only [Option.some.injEq] at h
    subst h
    refine ⟨List.mem_of_find?_eq_some hf, ?_⟩
    have hp := List.find?_some hf
    simp only [Bool.and_eq_true, beq_iff_eq] at hp
    exact hp.2
  | none =>
    rw [hf] at h
    have hm := firstMinBy_mem _ _ _ h
    have hm2 := List.mem_filter.mp hm
    refine ⟨hm2.1, ?_⟩
    have hp := hm2.2
    simp only [Bool.and_eq_true, beq_iff_eq] at hp
    exact hp.2

theorem map_id_of_eq {α : Type} (l : List α) (f : α → α) (h : ∀ a ∈ l, f a = a) :
    l.map f = l := by
  induction l with
  | nil => rfl
  | cons a l ih =>
    simp only [List.map_cons, h a (List.mem_cons_self a l)]
    rw [ih fun b hb => h b (List.mem_cons_of_mem a hb)]

/-- C4: `complete_task` by a (truthy) id marks exactly the pending rows
with that id as completed with `completed_at = now`, succeeding iff such
a row exists and leaving the store unchanged on failure (in particular
on an already-completed task); by a (truthy) title it acts on the fuzzy
match when one exists (which is necessarily pending, so it succeeds)
and fails with no mutation when no pending task matches; completing the
same id twice yields true then false. -/
theorem C4_complete_task_semantics (ts : List Task) (now now2 : String)
    (tid : Nat) (htid : tid ≠ 0) (ttl : String) (httl : ttl ≠ "") :
    (complete_task ts now (some tid) none).1
        = ts.any (fun t => t.id == tid && t.status == "pending") ∧
    (complete_task ts now (some tid) none).2
        = ts.map (fun t => if t.id == tid && t.status == "pending"
            then { t with status := "completed", completed_at := some now } else t) ∧
    ((complete_task ts now (some tid) none).1 = false →
        (complete_task ts now (some tid) none).2 = ts) ∧
    (∀ t, fuzzy_match_task ttl ts = some t →
        (complete_task ts now none (some ttl)).1 = true ∧
        (complete_task ts now none (some ttl)).2
          = ts.map (fun u => if u.id == t.id && u.status == "pending"
              then { u with status := "completed", completed_at := some now } else u)) ∧
    (fuzzy_match_task ttl ts = none → complete_task ts now none (some ttl) = (false, ts)) ∧
    ((complete_task ts now (some tid) none).1 = true →
        (complete_task (complete_task ts now (some tid) none).2 now2 (some tid) none).1
          = false) := by
  have hid : ∀ (l : List Task) (n : String),
      complete_task l n (some tid) none = completeById l n tid := fun l n => by
    simp [complete_task, truthyNat, htid]
  refine ⟨by rw [hid]; rfl, by rw [hid]; rfl, ?_, ?_, ?_, ?_⟩
  · intro hfail
    rw [hid] at hfail ⊢
    have hall : ∀ x ∈ ts, x.id = tid → ¬x.status = "pending" := by
      simpa [completeById] using hfail
    show (completeById ts now tid).2 = ts
    simp only [completeById]
    refine map_id_of_eq _ _ fun t ht => ?_
    have hc : ¬((t.id == tid && t.status == "pending") = true) := by
      simp only [Bool.and_eq_true, beq_iff_eq]
      rintro ⟨h1, h2⟩
      exact hall t ht h1 h2
    simp [hc]
  · intro t hft
    have hmem := fuzzy_match_task_mem ttl ts t hft
    have hby : complete_task ts now none (some ttl) = completeById ts now t.id := by
      simp [complete_task, truthyNat, truthyStr, httl, hft]
    refine ⟨?_, by rw [hby]; rfl⟩
    rw [hby]
    show List.any ts _ = true
    exact List.any_eq_true.mpr ⟨t, hmem.1, by simp [hmem.2]⟩
  · intro hnone
    simp [complete_task, truthyNat, truthyStr, httl, hnone]
  · intro _
    rw [hid, hid]
    show List.any _ _ = false
    cases hr : List.any ((completeById ts now tid).2)
        (fun t => t.id == tid && t.status == "pending") with
    | false => rfl
    | true =>
      exfalso
      rcases List.any_eq_true.mp hr with ⟨t', ht', hp⟩
      rcases List.mem_map.mp ht' with ⟨t, _, rfl⟩
      by_cases hc : (t.id == tid && t.status == "pending") = true
      · rw [if_pos hc] at hp
        simp at hp
      · rw [if_neg hc] at hp
        exact hc hp

/-- C4 witness: a store with one pending task; completing it by title
(uppercased) succeeds and a second identical call fails. -/
theorem C4_complete_task_semantics_witness :
    (complete_task
        [⟨1, "Math Homework", none, none, "medium", "pending", "c", none⟩]
        "t1" (some 1) none).1 = true ∧
      (complete_task
          (complete_task
            [⟨1, "Math Homework", none, none, "medium", "pending", "c", none⟩]
            "t1" (some 1) none).2
          "t2" (some 1) none).1 = false :=
  ⟨by decide,
   (C4_complete_task_semantics
      [⟨1, "Math Homework", none, none, "medium", "pending", "c", none⟩]
      "t1" "t2" 1 (by decide) "MATH HOMEWORK" (by decide)).2.2.2.2.2 (by decide)⟩

/-- C5: `delete_task` deletes by (truthy) id unconditionally — the row's
status is never consulted — succeeding iff a row with that id exists;
otherwise it resolves exactly as `complete_task` does, through
`fuzzy_match_task` on the (truthy) title, deleting the resolved row and
returning false only when nothing resolves. -/
theorem C5_delete_task_semantics (ts : List Task) (tid : Nat) (htid : tid ≠ 0)
    (ttl : String) (httl : ttl ≠ "") :
    (delete_task ts (some tid) none).1 = ts.any (fun t => t.id == tid) ∧
    (delete_task ts (some tid) none).2 = ts.filter (fun t => !(t.id == tid)) ∧
    (∀ t, fuzzy_match_task ttl ts = some t →
        delete_task ts none (some ttl) = (true, ts.filter fun u => !(u.id == t.id))) ∧
    (fuzzy_match_task ttl ts = none → delete_task ts none (some ttl) = (false, ts)) ∧
    delete_task ts none none = (false, ts) := by
  have hbyid : delete_task ts (some tid) none = deleteTaskById ts tid := by
    simp [delete_task, truthyNat, htid]
  refine ⟨by rw [hbyid]; rfl, by rw [hbyid]; rfl, ?_, ?_, ?_⟩
  · intro t hft
    have hmem := fuzzy_match_task_mem ttl ts t hft
    have hby : delete_task ts none (some ttl) = deleteTaskById ts t.id := by
      simp [delete_task, truthyNat, truthyStr, httl, hft]
    rw [hby]
    have hany : ts.any (fun u => u.id == t.id) = true :=
      List.any_eq_true.mpr ⟨t, hmem.1, by simp⟩
    simp [deleteTaskById, hany]
  · intro hnone
    simp [delete_task, truthyNat, truthyStr, httl, hnone]
  · simp [delete_task, truthyNat, truthyStr]

/-- C5 witness: deleting an already-completed task by id succeeds (no
status filter on deletion). -/
theorem C5_delete_task_semantics_witness :
    (delete_task
        [⟨1, "Math Homework", none, none, "medium", "completed", "c", some "t"⟩]
        (some 1) none).1 = true ∧
      (delete_task
          [⟨1, "Math Homework", none, none, "medium", "completed", "c", some "t"⟩]
          (some 1) none).2 = [] := by
  have h := C5_delete_task_semantics
    [⟨1, "Math Homework", none, none, "medium", "completed", "c", some "t"⟩]
    1 (by decide) "x" (by decide)
  exact ⟨by rw [h.1]; decide, by rw [h.2.1]; decide⟩

/-- C6: `update_task` applies only recognised fields (unrecognised keys
are ignored: pre-filtering the mapping to the allow-list changes
nothing); an empty recognised subset returns false with the store
unchanged; and when no row has the given id it returns false and the
store is unchanged. -/
theorem C6_update_task_fields (ts : List Task) (tid : Nat)
    (fields : List (String × String)) :
    update_task ts tid fields
        = update_task ts tid (fields.filter fun kv => allowedTaskFields.contains kv.1) ∧
    ((fields.filter fun kv => allowedTaskFields.contains kv.1) = [] →
        update_task ts tid fields = (false, ts)) ∧
    ((∀ t ∈ ts, t.id ≠ tid) → update_task ts tid fields = (false, ts)) := by
  refine ⟨?_, ?_, ?_⟩
  · simp only [update_task, List.filter_filter, Bool.and_self]
  · intro h
    simp only [update_task, h]
    rfl
  · intro h
    by_cases he : (fields.filter fun kv => allowedTaskFields.contains kv.1).isEmpty
    · simp only [update_task, he, if_true]
    · have hany : ts.any (fun t => t.id == tid) = false := by
        cases hr : ts.any (fun t => t.id == tid) with
        | false => rfl
        | true =>
          exfalso
          rcases List.any_eq_true.mp hr with ⟨t, ht, hp⟩
          exact h t ht (by simpa using hp)
      have hmap : (ts.map fun t =>
          if t.id == tid
          then (fields.filter fun kv => allowedTaskFields.contains kv.1).foldl
            applyTaskField t
          else t) = ts := by
        refine map_id_of_eq _ _ fun t ht => ?_
        have : (t.id == tid) = false := by simpa using h t ht
        simp [this]
      have he' : (fields.filter fun kv => allowedTaskFields.contains kv.1).isEmpty = false :=
        Bool.eq_false_iff.mpr he
      simp only [update_task, he', Bool.false_eq_true, if_false]
      rw [hany, hmap]

/-- C6 witness: an update carrying only an unrecognised key is a no-op
returning false. -/
theorem C6_update_task_fields_witness :
    update_task [⟨1, "Essay", none, none, "medium", "pending", "c", none⟩] 1
        [("nonsense", "x")]
      = (false, [⟨1, "Essay", none, none, "medium", "pending", "c", none⟩]) :=
  (C6_update_task_fields
      [⟨1, "Essay", none, none, "medium", "pending", "c", none⟩] 1
      [("nonsense", "x")]).2.1 (by decide)

theorem lexLeB_total : ∀ as bs : List Char, lexLeB as bs = true ∨ lexLeB bs as = true := by
  intro as
  induction as with
  | nil => intro bs; exact Or.inl rfl
  | cons a as ih =>
    intro bs
    cases bs with
    | nil => exact Or.inr rfl
    | cons b bs =>
      rcases lt_trichotomy a b with h | h | h
      · exact Or.inl (by simp [lexLeB, h])
      · subst h
        rcases ih bs with h2 | h2
        · exact Or.inl (by simp [lexLeB, h2])
        · exact Or.inr (by simp [lexLeB, h2])
      · exact Or.inr (by simp [lexLeB, h])

theorem lexLeB_trans : ∀ as bs cs : List Char,
    lexLeB as bs = true → lexLeB bs cs = true → lexLeB as cs = true := by
  intro as
  induction as with
  | nil => intro bs cs _ _; rfl
  | cons a as ih =>
    intro bs cs h1 h2
    cases bs with
    | nil => exact absurd h1 (by simp [lexLeB])
    | cons b bs =>
      cases cs with
      | nil => exact absurd h2 (by simp [lexLeB])
      | cons c cs =>
        simp only [lexLeB, Bool.or_eq_true, Bool.and_eq_true, decide_eq_true_eq,
          beq_iff_eq] at h1 h2 ⊢
        rcases h1 with h1 | ⟨rfl, h1⟩
        · rcases h2 with h2 | ⟨rfl, h2⟩
          · exact Or.inl (lt_trans h1 h2)
          · exact Or.inl h1
        · rcases h2 with h2 | ⟨rfl, h2⟩
          · exact Or.inl h2
          · exact Or.inr ⟨rfl, ih bs cs h1 h2⟩

instance : IsTotal Task dueLe :=
  ⟨fun a b => lexLeB_total (a.deadline.getD "").data (b.deadline.getD "").data⟩

instance : IsTrans Task dueLe :=
  ⟨fun _ _ _ h1 h2 => lexLeB_trans _ _ _ h1 h2⟩

/-- C9: `get_tasks_due_by cutoff` returns exactly (as a permutation of
the row multiset) the pending tasks whose deadline is non-NULL and at
most the cutoff, sorted ascending by deadline; every returned task is
pending with such a deadline. -/
theorem C9_get_tasks_due_by (cutoff : String) (ts : List Task) :
    List.Perm (get_tasks_due_by cutoff ts)
        (ts.filter fun t =>
          t.status == "pending" &&
            match t.deadline with
            | some d => strLeB d cutoff
            | none => false) ∧
    List.Sorted dueLe (get_tasks_due_by cutoff ts) ∧
    ∀ t ∈ get_tasks_due_by cutoff ts,
      t.status = "pending" ∧ ∃ d, t.deadline = some d ∧ strLeB d cutoff = true := by
  refine ⟨List.perm_insertionSort _ _, List.sorted_insertionSort _ _, ?_⟩
  intro t ht
  have hmem : t ∈ ts.filter fun t =>
      t.status == "pending" &&
        match t.deadline with
        | some d => strLeB d cutoff
        | none => false := by
    simpa [get_tasks_due_by] using ht
  have hp := (List.mem_filter.mp hmem).2
  simp only [Bool.and_eq_true, beq_iff_eq] at hp
  refine ⟨hp.1, ?_⟩
  cases hd : t.deadline with
  | none => rw [hd] at hp; exact absurd hp.2 (by simp)
  | some d => rw [hd] at hp; exact ⟨d, rfl, hp.2⟩

/-- C9 witness: the membership characterisation applied to a concrete
store where exactly one pending task is due. -/
theorem C9_get_tasks_due_by_witness :
    (⟨1, "A", none, some "2025-01-01", "medium", "pending", "c", none⟩ : Task).status
        = "pending" ∧
      ∃ d, (⟨1, "A", none, some "2025-01-01", "medium", "pending", "c", none⟩ : Task).deadline
          = some d ∧ strLeB d "2025-12-31" = true :=
  (C9_get_tasks_due_by "2025-12-31"
      [⟨1, "A", none, some "2025-01-01", "medium", "pending", "c", none⟩,
       ⟨2, "B", none, some "2026-06-01", "medium", "pending", "c", none⟩,
       ⟨3, "C", none, some "2025-01-02", "medium", "completed", "c", some "t"⟩]).2.2
    ⟨1, "A", none, some "2025-01-01", "medium", "pending", "c", none⟩ (by decide)

/-- The spec's task invariant: `completed_at` is non-null iff the status
is `"completed"`. -/
def taskInv (ts : List Task) : Prop :=
  ∀ t ∈ ts, (t.completed_at ≠ none ↔ t.status = "completed")

instance (ts : List Task) : Decidable (taskInv ts) :=
  inferInstanceAs (Decidable (∀ t ∈ ts, (t.completed_at ≠ none ↔ t.status = "completed")))

theorem add_task_inv (ts : List Task) (now title : String)
    (deadline : Option String) (priority : String) (description : Option String)
    (hinv : taskInv ts) :
    taskInv (add_task ts now title deadline priority description).2 := by
  intro t ht
  simp only [add_task] at ht
  rcases List.mem_append.mp ht with h | h
  · exact hinv t h
  · have ht' : t = ⟨nextTaskId ts, title, description, deadline, priority, "pending", now, none⟩ := by
      simpa using h
    subst ht'
    show ((none : Option String) ≠ none ↔ ("pending" : String) = "completed")
    decide

theorem completeById_inv (ts : List Task) (now : String) (tid : Nat)
    (hinv : taskInv ts) : taskInv (completeById ts now tid).2 := by
  intro t' ht'
  simp only [completeById] at ht'
  rcases List.mem_map.mp ht' with ⟨t, ht, rfl⟩
  by_cases hc : (t.id == tid && t.status == "pending") = true
  · rw [if_pos hc]
    simp
  · rw [if_neg hc]
    exact hinv t ht

theorem complete_task_inv (ts : List Task) (now : String)
    (task_id : Option Nat) (title : Option String) (hinv : taskInv ts) :
    taskInv (complete_task ts now task_id title).2 := by
  rcases htn : truthyNat task_id with _ | tid
  · rcases hts : truthyStr title with _ | ttl
    · simpa [complete_task, htn, hts] using hinv
    · rcases hf : fuzzy_match_task ttl ts with _ | t
      · simpa [complete_task, htn, hts, hf] using hinv
      · have : (complete_task ts now task_id title).2 = (completeById ts now t.id).2 := by
          simp [complete_task, htn, hts, hf]
        rw [this]
        exact completeById_inv ts now t.id hinv
  · have : (complete_task ts now task_id title).2 = (completeById ts now tid).2 := by
      simp [complete_task, htn]
    rw [this]
    exact completeById_inv ts now tid hinv

theorem delete_task_inv (ts : List Task) (task_id : Option Nat)
    (title : Option String) (hinv : taskInv ts) :
    taskInv (delete_task ts task_id title).2 := by
  have hfil : ∀ tid : Nat, taskInv (deleteTaskById ts tid).2 := by
    intro tid t ht
    exact hinv t (List.mem_filter.mp ht).1
  rcases htn : truthyNat task_id with _ | tid
  · rcases hts : truthyStr title with _ | ttl
    · simpa [delete_task, htn, hts] using hinv
    · rcases hf : fuzzy_match_task ttl ts with _ | t
      · simpa [delete_task, htn, hts, hf] using hinv
      · have : (delete_task ts task_id title).2 = (deleteTaskById ts t.id).2 := by
          simp [delete_task, htn, hts, hf]
        rw [this]
        exact hfil t.id
  · have : (delete_task ts task_id title).2 = (deleteTaskById ts tid).2 := by
      simp [delete_task, htn]
    rw [this]
    exact hfil tid

theorem applyTaskField_keeps (t : Task) (kv : String × String)
    (h : kv.1 ≠ "status") :
    (applyTaskField t kv).status = t.status ∧
      (applyTaskField t kv).completed_at = t.completed_at := by
  unfold applyTaskField
  split_ifs <;> simp_all

theorem foldl_applyTaskField_keeps :
    ∀ (fs : List (String × String)) (t : Task), (∀ kv ∈ fs, kv.1 ≠ "status") →
      (fs.foldl applyTaskField t).status = t.status ∧
        (fs.foldl applyTaskField t).completed_at = t.completed_at
  | [], _, _ => ⟨rfl, rfl⟩
  | kv :: fs, t, h => by
    have h1 := applyTaskField_keeps t kv (h kv (List.mem_cons_self kv fs))
    have h2 := foldl_applyTaskField_keeps fs (applyTaskField t kv)
      fun u hu => h u (List.mem_cons_of_mem kv hu)
    simp only [List.foldl_cons]
    exact ⟨h2.1.trans h1.1, h2.2.trans h1.2⟩

theorem update_task_inv (ts : List Task) (tid : Nat)
    (fields : List (String × String)) (hinv : taskInv ts)
    (hf : ∀ kv ∈ fields, kv.1 ≠ "status") :
    taskInv (update_task ts tid fields).2 := by
  by_cases he : (fields.filter fun kv => allowedTaskFields.contains kv.1).isEmpty
  · simp only [update_task, he, if_true]
    exact hinv
  · have he' : (fields.filter fun kv => allowedTaskFields.contains kv.1).isEmpty = false :=
      Bool.eq_false_iff.mpr he
    simp only [update_task, he', Bool.false_eq_true, if_false]
    intro t' ht'
    rcases List.mem_map.mp ht' with ⟨t, ht, rfl⟩
    by_cases hid : (t.id == tid) = true
    · rw [if_pos hid]
      have hk := foldl_applyTaskField_keeps
        (fields.filter fun kv => allowedTaskFields.contains kv.1) t
        fun kv hkv => hf kv (List.mem_filter.mp hkv).1
      rw [hk.1, hk.2]
      exact hinv t ht
    · rw [if_neg hid]
      exact hinv t ht

theorem mem_match_pair {k : String} {x : Option String} {kv : String × String}
    (h : kv ∈ (match truthyStr x with | some v => [(k, v)] | none => [])) :
    kv.1 = k := by
  cases hx : truthyStr x <;> rw [hx] at h <;> simp_all

theorem modifyTaskUpdates_keys (p : Params) :
    ∀ kv ∈ modifyTaskUpdates p,
      kv.1 = "title" ∨ kv.1 = "deadline" ∨ kv.1 = "priority" := by
  intro kv hkv
  unfold modifyTaskUpdates at hkv
  rcases List.mem_append.mp hkv with h | h
  · rcases List.mem_append.mp h with h' | h'
    · exact Or.inl (mem_match_pair h')
    · exact Or.inr (Or.inl (mem_match_pair h'))
  · exact Or.inr (Or.inr (mem_match_pair h))

theorem modifyTaskUpdates_no_status (p : Params) :
    ∀ kv ∈ modifyTaskUpdates p, kv.1 ≠ "status" := by
  intro kv hkv
  rcases modifyTaskUpdates_keys p kv hkv with h | h | h <;> simp [h]

theorem callO_true {α : Type} (o : Oracle) (k : Nat) (db : DB) (a : α)
    (h : o k = true) : callO o k db a = Except.error db := by
  simp [callO, h]

theorem callO_false {α : Type} (o : Oracle) (k : Nat) (db : DB) (a : α)
    (h : o k = false) : callO o k db a = Except.ok a := by
  simp [callO, h]

theorem resolveModifyTask_error (o : Oracle) (p : Params) (db db' : DB)
    (h : resolveModifyTask o p db = Except.error db') : db' = db := by
  unfold resolveModifyTask at h
  rcases htn : truthyNat p.task_id with _ | tid <;> rw [htn] at h
  · rcases hts : truthyStr p.task_title with _ | ttl <;> rw [hts] at h
    · cases h
    · cases ho : o 0 with
      | false =>
        simp only [callO, ho, Bool.false_eq_true, if_false] at h
        cases hf : fuzzy_match_task ttl db.tasks <;> rw [hf] at h <;> simp at h
      | true =>
        simp only [callO, ho, if_true, Except.error.injEq] at h
        exact h.symm
  · cases h

theorem execModifyTask_err (o : Oracle) (p : Params) (msg : String) (db db' : DB)
    (hres : resolveModifyTask o p db = Except.error db') :
    execModifyTask o p msg db = Except.error db' := by
  simp only [execModifyTask, hres]

theorem execModifyTask_none (o : Oracle) (p : Params) (msg : String) (db : DB)
    (hres : resolveModifyTask o p db = Except.ok none) :
    execModifyTask o p msg db
      = Except.ok ("Couldn't find that task to modify. Can you be more specific?", db) := by
  simp only [execModifyTask, hres]

theorem execModifyTask_empty (o : Oracle) (p : Params) (msg : String) (db : DB)
    (tid : Nat) (hres : resolveModifyTask o p db = Except.ok (some tid))
    (hu : (modifyTaskUpdates p).isEmpty = true) :
    execModifyTask o p msg db = Except.ok (msg, db) := by
  simp only [execModifyTask, hres, hu, if_true]

theorem execModifyTask_fault (o : Oracle) (p : Params) (msg : String) (db : DB)
    (tid : Nat) (hres : resolveModifyTask o p db = Except.ok (some tid))
    (hu : (modifyTaskUpdates p).isEmpty = false) (ho : o 1 = true) :
    execModifyTask o p msg db = Except.error db := by
  simp only [execModifyTask, hres, hu, Bool.false_eq_true, if_false,
    callO_true _ _ _ _ ho]

theorem execModifyTask_run (o : Oracle) (p : Params) (msg : String) (db : DB)
    (tid : Nat) (hres : resolveModifyTask o p db = Except.ok (some tid))
    (hu : (modifyTaskUpdates p).isEmpty = false) (ho : o 1 = false) :
    execModifyTask o p msg db
      = Except.ok
          (if (update_task db.tasks tid (modifyTaskUpdates p)).1 then msg
            else "Couldn't update that task. Can you try again?",
           { db with tasks := (update_task db.tasks tid (modifyTaskUpdates p)).2 }) := by
  simp only [execModifyTask, hres, hu, Bool.false_eq_true, if_false,
    callO_false _ _ _ _ ho]
  by_cases hr : (update_task db.tasks tid (modifyTaskUpdates p)).1 = true
  · simp only [hr, if_true]
  · have hr' : (update_task db.tasks tid (modifyTaskUpdates p)).1 = false :=
      Bool.eq_false_iff.mpr hr
    simp only [hr', Bool.false_eq_true, if_false]

theorem execute_action_o_ok (o : Oracle) (resp : AgentResponse) (now : String)
    (db : DB) (r : String × DB) (h : execBody o resp now db = Except.ok r) :
    execute_action_o o resp now db = r := by
  simp only [execute_action_o, h]

theorem execute_action_o_err (o : Oracle) (resp : AgentResponse) (now : String)
    (db : DB) (db' : DB) (h : execBody o resp now db = Except.error db') :
    execute_action_o o resp now db = (genericErrorMsg, db') := by
  simp only [execute_action_o, h]

theorem execBody_modify_task (o : Oracle) (p : Params) (msg now : String)
    (db : DB) :
    execBody o ⟨ActionType.MODIFY_TASK, p, msg⟩ now db = execModifyTask o p msg db := rfl

theorem execute_modify_task_inv (o : Oracle) (p : Params) (msg now : String)
    (db : DB) (hinv : taskInv db.tasks) :
    taskInv (execute_action_o o ⟨ActionType.MODIFY_TASK, p, msg⟩ now db).2.tasks := by
  cases hres : resolveModifyTask o p db with
  | error db' =>
    have hdb := resolveModifyTask_error o p db db' hres
    rw [execute_action_o_err o _ now db db'
      ((execBody_modify_task o p msg now db).trans (execModifyTask_err o p msg db db' hres))]
    rw [hdb]
    exact hinv
  | ok tid? =>
    cases tid? with
    | none =>
      rw [execute_action_o_ok o _ now db _
        ((execBody_modify_task o p msg now db).trans (execModifyTask_none o p msg db hres))]
      exact hinv
    | some tid =>
      cases hu : (modifyTaskUpdates p).isEmpty with
      | true =>
        rw [execute_action_o_ok o _ now db _
          ((execBody_modify_task o p msg now db).trans
            (execModifyTask_empty o p msg db tid hres hu))]
        exact hinv
      | false =>
        cases ho : o 1 with
        | true =>
          rw [execute_action_o_err o _ now db db
            ((execBody_modify_task o p msg now db).trans
              (execModifyTask_fault o p msg db tid hres hu ho))]
          exact hinv
        | false =>
          rw [execute_action_o_ok o _ now db _
            ((execBody_modify_task o p msg now db).trans
              (execModifyTask_run o p msg db tid hres hu ho))]
          exact update_task_inv db.tasks tid (modifyTaskUpdates p) hinv
            (modifyTaskUpdates_no_status p)

/-- C1 (amended): the `completed_at`-iff-`completed` invariant is
preserved by `add_task`, `complete_task`, `delete_task`, the MODIFY_TASK
dispatch path (under any fault oracle), and by `update_task` whenever the
update mapping does not set `status`; an `update_task` carrying a
`status` field can violate it. -/
theorem C1_invariant_preserved (ts : List Task) (now title priority : String)
    (deadline description : Option String) (task_id : Option Nat)
    (titleArg : Option String) (tid : Nat) (fields : List (String × String))
    (o : Oracle) (p : Params) (msg : String) (evs : List Event)
    (hinv : taskInv ts) :
    taskInv (add_task ts now title deadline priority description).2 ∧
    taskInv (complete_task ts now task_id titleArg).2 ∧
    taskInv (delete_task ts task_id titleArg).2 ∧
    ((∀ kv ∈ fields, kv.1 ≠ "status") → taskInv (update_task ts tid fields).2) ∧
    taskInv (execute_action_o o ⟨ActionType.MODIFY_TASK, p, msg⟩ now ⟨ts, evs⟩).2.tasks :=
  ⟨add_task_inv ts now title deadline priority description hinv,
   complete_task_inv ts now task_id titleArg hinv,
   delete_task_inv ts task_id titleArg hinv,
   fun hf => update_task_inv ts tid fields hinv hf,
   execute_modify_task_inv o p msg now ⟨ts, evs⟩ hinv⟩

/-- C1 witness: the preservation theorem applied to a concrete pending
store, for a completion by id. -/
theorem C1_invariant_preserved_witness :
    taskInv (complete_task
      [⟨1, "Essay", none, none, "medium", "pending", "c", none⟩]
      "t1" (some 1) none).2 :=
  (C1_invariant_preserved
      [⟨1, "Essay", none, none, "medium", "pending", "c", none⟩]
      "t1" "x" "medium" none none (some 1) none 1 [] noFault {} "m" []
      (by decide)).2.1

/-- C1 counterexample: `update_task` accepts a `status` field, so setting
`status` to `"completed"` through it leaves `completed_at` NULL, breaking
the claimed invariant after a mutation through `update_task`. -/
theorem C1_invariant_counterexample :
    taskInv [⟨1, "Essay", none, none, "medium", "pending", "c", none⟩] ∧
    (update_task [⟨1, "Essay", none, none, "medium", "pending", "c", none⟩] 1
        [("status", "completed")]).1 = true ∧
    ¬ taskInv (update_task [⟨1, "Essay", none, none, "medium", "pending", "c", none⟩] 1
        [("status", "completed")]).2 := by
  decide

/-- C7: in a MODIFY_TASK dispatch the target is resolved by the truthy
`task_id` parameter, else by fuzzy match on the truthy `task_title`
parameter (`resolveModifyTask`); when unresolved the fixed
couldn't-find-to-modify fallback is returned for every classifier
message and the store is untouched; when resolved with a non-empty
sparse update set the set is applied through `update_task` and the
couldn't-update fallback is returned exactly when the store reports no
row updated; when resolved with an empty update set no update store
call is made (the outcome is independent of whether that call would
fault) and the classifier's message is returned as-is. -/
theorem C7_modify_task_dispatch (p : Params) (msg now : String) (db : DB) :
    (∀ o : Oracle, resolveModifyTask o p db = Except.ok none →
        execute_action_o o ⟨ActionType.MODIFY_TASK, p, msg⟩ now db
          = ("Couldn't find that task to modify. Can you be more specific?", db)) ∧
    (∀ tid : Nat, resolveModifyTask noFault p db = Except.ok (some tid) →
        modifyTaskUpdates p ≠ [] →
        execute_action ⟨ActionType.MODIFY_TASK, p, msg⟩ now db
          = ((if (update_task db.tasks tid (modifyTaskUpdates p)).1 then msg
              else "Couldn't update that task. Can you try again?"),
             { db with tasks := (update_task db.tasks tid (modifyTaskUpdates p)).2 })) ∧
    (∀ (o : Oracle) (tid : Nat), resolveModifyTask o p db = Except.ok (some tid) →
        modifyTaskUpdates p = [] →
        execute_action_o o ⟨ActionType.MODIFY_TASK, p, msg⟩ now db = (msg, db)) := by
  refine ⟨?_, ?_, ?_⟩
  · intro o hres
    exact execute_action_o_ok o _ now db _
      ((execBody_modify_task o p msg now db).trans (execModifyTask_none o p msg db hres))
  · intro tid hres hne
    have hu : (modifyTaskUpdates p).isEmpty = false := by
      cases hmu : modifyTaskUpdates p with
      | nil => exact absurd hmu hne
      | cons a l => rfl
    exact execute_action_o_ok noFault _ now db _
      ((execBody_modify_task noFault p msg now db).trans
        (execModifyTask_run noFault p msg db tid hres hu rfl))
  · intro o tid hres hemp
    have hu : (modifyTaskUpdates p).isEmpty = true := by simp [hemp]
    exact execute_action_o_ok o _ now db _
      ((execBody_modify_task o p msg now db).trans
        (execModifyTask_empty o p msg db tid hres hu))

/-- C7 witness: a resolved MODIFY_TASK with an empty update set returns
the classifier's message and leaves the store untouched even under an
oracle that would fault the update call. -/
theorem C7_modify_task_dispatch_witness :
    execute_action_o (fun k => k == 1)
        ⟨ActionType.MODIFY_TASK, { task_id := some 1 }, "ok, nothing to change"⟩ "t"
        ⟨[⟨1, "Essay", none, none, "medium", "pending", "c", none⟩], []⟩
      = ("ok, nothing to change",
         ⟨[⟨1, "Essay", none, none, "medium", "pending", "c", none⟩], []⟩) :=
  (C7_modify_task_dispatch { task_id := some 1 } "ok, nothing to change" "t"
      ⟨[⟨1, "Essay", none, none, "medium", "pending", "c", none⟩], []⟩).2.2
    (fun k => k == 1) 1 rfl rfl

/-- C8: the dispatcher never re-raises a storage fault: whenever the
`try` body faults the single generic message is returned (with the
store as the faulting call left it); otherwise the branch result passes
through unchanged — so dispatch always yields a plain reply string; a
QUERY dispatch returns the classifier's message with no store call. -/
theorem C8_dispatch_catches_faults (o : Oracle) (resp : AgentResponse)
    (now : String) (db : DB) :
    (∀ db' : DB, execBody o resp now db = Except.error db' →
        execute_action_o o resp now db = (genericErrorMsg, db')) ∧
    (∀ r : String × DB, execBody o resp now db = Except.ok r →
        execute_action_o o resp now db = r) ∧
    (resp.action = ActionType.QUERY →
        execute_action_o o resp now db = (resp.message, db)) := by
  refine ⟨?_, ?_, ?_⟩
  · intro db' h
    exact execute_action_o_err o resp now db db' h
  · intro r h
    exact execute_action_o_ok o resp now db r h
  · intro hq
    refine execute_action_o_ok o resp now db _ ?_
    simp only [execBody, hq]

/-- C8 witness: under an oracle where every store call faults, a
COMPLETE_TASK dispatch returns exactly the generic message with the
store unchanged. -/
theorem C8_dispatch_catches_faults_witness :
    execute_action_o (fun _ => true)
        ⟨ActionType.COMPLETE_TASK, { task_id := some 1 }, "done!"⟩ "t"
        ⟨[⟨1, "Essay", none, none, "medium", "pending", "c", none⟩], []⟩
      = (genericErrorMsg,
         ⟨[⟨1, "Essay", none, none, "medium", "pending", "c", none⟩], []⟩) :=
  (C8_dispatch_catches_faults (fun _ => true)
      ⟨ActionType.COMPLETE_TASK, { task_id := some 1 }, "done!"⟩ "t"
      ⟨[⟨1, "Essay", none, none, "medium", "pending", "c", none⟩], []⟩).1
    ⟨[⟨1, "Essay", none, none, "medium", "pending", "c", none⟩], []⟩ rfl

/-- A parameter bag with every slot the MODIFY branches consult
normalised under Python truthiness: falsy ids (`0`, null) and falsy
strings (`""`, null) become absent. -/
def normParams (p : Params) : Params :=
  { p with
    task_id := truthyNat p.task_id
    task_title := truthyStr p.task_title
    event_id := truthyNat p.event_id
    event_title := truthyStr p.event_title
    new_title := truthyStr p.new_title
    new_deadline := truthyStr p.new_deadline
    new_priority := truthyStr p.new_priority
    new_start_time := truthyStr p.new_start_time
    new_end_time := truthyStr p.new_end_time
    new_location := truthyStr p.new_location }

theorem truthyNat_idem (x : Option Nat) : truthyNat (truthyNat x) = truthyNat x := by
  cases x with
  | none => rfl
  | some n => by_cases h : n = 0 <;> simp [truthyNat, h]

theorem truthyStr_idem (x : Option String) : truthyStr (truthyStr x) = truthyStr x := by
  cases x with
  | none => rfl
  | some s => by_cases h : s = "" <;> simp [truthyStr, h]

theorem resolveModifyTask_norm (o : Oracle) (p : Params) (db : DB) :
    resolveModifyTask o (normParams p) db = resolveModifyTask o p db := by
  simp only [resolveModifyTask, normParams, truthyNat_idem, truthyStr_idem]

theorem resolveModifyEvent_norm (o : Oracle) (p : Params) (db : DB) :
    resolveModifyEvent o (normParams p) db = resolveModifyEvent o p db := by
  simp only [resolveModifyEvent, normParams, truthyNat_idem, truthyStr_idem]

theorem modifyTaskUpdates_norm (p : Params) :
    modifyTaskUpdates (normParams p) = modifyTaskUpdates p := by
  simp only [modifyTaskUpdates, normParams, truthyStr_idem]

theorem modifyEventUpdates_norm (p : Params) :
    modifyEventUpdates (normParams p) = modifyEventUpdates p := by
  simp only [modifyEventUpdates, normParams, truthyStr_idem]

theorem execModifyTask_norm (o : Oracle) (p : Params) (msg : String) (db : DB) :
    execModifyTask o (normParams p) msg db = execModifyTask o p msg db := by
  simp only [execModifyTask, resolveModifyTask_norm, modifyTaskUpdates_norm]

theorem execModifyEvent_norm (o : Oracle) (p : Params) (msg : String) (db : DB) :
    execModifyEvent o (normParams p) msg db = execModifyEvent o p msg db := by
  simp only [execModifyEvent, resolveModifyEvent_norm, modifyEventUpdates_norm]

theorem resolveModifyEvent_error (o : Oracle) (p : Params) (db db' : DB)
    (h : resolveModifyEvent o p db = Except.error db') : db' = db := by
  unfold resolveModifyEvent at h
  rcases htn : truthyNat p.event_id with _ | eid <;> rw [htn] at h
  · rcases hts : truthyStr p.event_title with _ | ttl <;> rw [hts] at h
    · cases h
    · cases ho : o 0 with
      | false =>
        simp only [callO, ho, Bool.false_eq_true, if_false] at h
        cases hf : fuzzy_match_event ttl db.events <;> rw [hf] at h <;> simp at h
      | true =>
        simp only [callO, ho, if_true, Except.error.injEq] at h
        exact h.symm
  · cases h

theorem execModifyEvent_err (o : Oracle) (p : Params) (msg : String) (db db' : DB)
    (hres : resolveModifyEvent o p db = Except.error db') :
    execModifyEvent o p msg db = Except.error db' := by
  simp only [execModifyEvent, hres]

theorem execModifyEvent_none (o : Oracle) (p : Params) (msg : String) (db : DB)
    (hres : resolveModifyEvent o p db = Except.ok none) :
    execModifyEvent o p msg db
      = Except.ok ("Couldn't find that event to modify. Can you be more specific?", db) := by
  simp only [execModifyEvent, hres]

theorem execModifyEvent_empty (o : Oracle) (p : Params) (msg : String) (db : DB)
    (eid : Nat) (hres : resolveModifyEvent o p db = Except.ok (some eid))
    (hu : (modifyEventUpdates p).isEmpty = true) :
    execModifyEvent o p msg db = Except.ok (msg, db) := by
  simp only [execModifyEvent, hres, hu, if_true]

theorem execModifyEvent_fault (o : Oracle) (p : Params) (msg : String) (db : DB)
    (eid : Nat) (hres : resolveModifyEvent o p db = Except.ok (some eid))
    (hu : (modifyEventUpdates p).isEmpty = false) (ho : o 1 = true) :
    execModifyEvent o p msg db = Except.error db := by
  simp only [execModifyEvent, hres, hu, Bool.false_eq_true, if_false,
    callO_true _ _ _ _ ho]

theorem execModifyEvent_run (o : Oracle) (p : Params) (msg : String) (db : DB)
    (eid : Nat) (hres : resolveModifyEvent o p db = Except.ok (some eid))
    (hu : (modifyEventUpdates p).isEmpty = false) (ho : o 1 = false) :
    execModifyEvent o p msg db
      = Except.ok
          ((if (update_event db.events eid (modifyEventUpdates p)).1 then msg
            else "Couldn't update that event. Can you try again?"),
           { db with events := (update_event db.events eid (modifyEventUpdates p)).2 }) := by
  simp only [execModifyEvent, hres, hu, Bool.false_eq_true, if_false,
    callO_false _ _ _ _ ho]
  by_cases hr : (update_event db.events eid (modifyEventUpdates p)).1 = true
  · simp only [hr, if_true]
  · have hr' : (update_event db.events eid (modifyEventUpdates p)).1 = false :=
      Bool.eq_false_iff.mpr hr
    simp only [hr', Bool.false_eq_true, if_false]

theorem execBody_modify_event (o : Oracle) (p : Params) (msg now : String)
    (db : DB) :
    execBody o ⟨ActionType.MODIFY_EVENT, p, msg⟩ now db = execModifyEvent o p msg db := rfl

theorem execute_modify_event_tasks (o : Oracle) (p : Params) (msg now : String)
    (db : DB) :
    (execute_action_o o ⟨ActionType.MODIFY_EVENT, p, msg⟩ now db).2.tasks = db.tasks := by
  cases hres : resolveModifyEvent o p db with
  | error db' =>
    rw [execute_action_o_err o _ now db db'
      ((execBody_modify_event o p msg now db).trans (execModifyEvent_err o p msg db db' hres))]
    rw [resolveModifyEvent_error o p db db' hres]
  | ok eid? =>
    cases eid? with
    | none =>
      rw [execute_action_o_ok o _ now db _
        ((execBody_modify_event o p msg now db).trans (execModifyEvent_none o p msg db hres))]
    | some eid =>
      cases hu : (modifyEventUpdates p).isEmpty with
      | true =>
        rw [execute_action_o_ok o _ now db _
          ((execBody_modify_event o p msg now db).trans
            (execModifyEvent_empty o p msg db eid hres hu))]
      | false =>
        cases ho : o 1 with
        | true =>
          rw [execute_action_o_err o _ now db db
            ((execBody_modify_event o p msg now db).trans
              (execModifyEvent_fault o p msg db eid hres hu ho))]
        | false =>
          rw [execute_action_o_ok o _ now db _
            ((execBody_modify_event o p msg now db).trans
              (execModifyEvent_run o p msg db eid hres hu ho))]

theorem truthyStr_ne_empty {x : Option String} {v : String}
    (h : truthyStr x = some v) : v ≠ "" := by
  cases x with
  | none => cases h
  | some s =>
    by_cases hs : s = ""
    · simp [truthyStr, hs] at h
    · simp only [truthyStr, hs, if_false, Option.some.injEq] at h
      exact h ▸ hs

theorem mem_match_pair_val {k : String} {x : Option String} {kv : String × String}
    (h : kv ∈ (match truthyStr x with | some v => [(k, v)] | none => [])) :
    kv.1 = k ∧ truthyStr x = some kv.2 := by
  cases hx : truthyStr x <;> rw [hx] at h <;> simp_all

theorem modifyTaskUpdates_title_ne_empty (p : Params) :
    ∀ kv ∈ modifyTaskUpdates p, kv.1 = "title" → kv.2 ≠ "" := by
  intro kv hkv _
  unfold modifyTaskUpdates at hkv
  rcases List.mem_append.mp hkv with h | h
  · rcases List.mem_append.mp h with h' | h'
    · exact truthyStr_ne_empty (mem_match_pair_val h').2
    · exact truthyStr_ne_empty (mem_match_pair_val h').2
  · exact truthyStr_ne_empty (mem_match_pair_val h).2

theorem applyTaskField_id (t : Task) (kv : String × String) :
    (applyTaskField t kv).id = t.id := by
  unfold applyTaskField
  split_ifs <;> rfl

theorem applyTaskField_title (t : Task) (kv : String × String)
    (h : kv.1 = "title" → kv.2 ≠ "") :
    (applyTaskField t kv).title = "" → t.title = "" := by
  unfold applyTaskField
  split_ifs with h1 h2 h3 h4 h5 <;> intro ht <;> first
    | exact absurd ht (h h1)
    | exact ht

theorem foldl_applyTaskField_title :
    ∀ (fs : List (String × String)) (t : Task),
      (∀ kv ∈ fs, kv.1 = "title" → kv.2 ≠ "") →
      ((fs.foldl applyTaskField t).id = t.id ∧
        ((fs.foldl applyTaskField t).title = "" → t.title = ""))
  | [], _, _ => ⟨rfl, fun h => h⟩
  | kv :: fs, t, h => by
    have h2 := foldl_applyTaskField_title fs (applyTaskField t kv)
      fun u hu => h u (List.mem_cons_of_mem kv hu)
    simp only [List.foldl_cons]
    refine ⟨h2.1.trans (applyTaskField_id t kv), fun ht => ?_⟩
    exact applyTaskField_title t kv (h kv (List.mem_cons_self kv fs)) (h2.2 ht)

theorem update_task_empty_title (ts : List Task) (tid : Nat)
    (fields : List (String × String))
    (hf : ∀ kv ∈ fields, kv.1 = "title" → kv.2 ≠ "") :
    ∀ t' ∈ (update_task ts tid fields).2,
      t'.title = "" → ∃ u ∈ ts, u.id = t'.id ∧ u.title = "" := by
  intro t' ht' htitle
  by_cases he : (fields.filter fun kv => allowedTaskFields.contains kv.1).isEmpty
  · rw [show (update_task ts tid fields).2 = ts by simp only [update_task, he, if_true]] at ht'
    exact ⟨t', ht', rfl, htitle⟩
  · have he' : (fields.filter fun kv => allowedTaskFields.contains kv.1).isEmpty = false :=
      Bool.eq_false_iff.mpr he
    simp only [update_task, he', Bool.false_eq_true, if_false] at ht'
    rcases List.mem_map.mp ht' with ⟨t, ht, rfl⟩
    by_cases hid : (t.id == tid) = true
    · rw [if_pos hid] at htitle ⊢
      have hk := foldl_applyTaskField_title
        (fields.filter fun kv => allowedTaskFields.contains kv.1) t
        fun kv hkv => hf kv (List.mem_filter.mp hkv).1
      exact ⟨t, ht, hk.1.symm, hk.2 htitle⟩
    · rw [if_neg hid] at htitle ⊢
      exact ⟨t, ht, rfl, htitle⟩

theorem execute_modify_task_empty_title (o : Oracle) (p : Params)
    (msg now : String) (db : DB) :
    ∀ t' ∈ (execute_action_o o ⟨ActionType.MODIFY_TASK, p, msg⟩ now db).2.tasks,
      t'.title = "" → ∃ u ∈ db.tasks, u.id = t'.id ∧ u.title = "" := by
  cases hres : resolveModifyTask o p db with
  | error db' =>
    rw [execute_action_o_err o _ now db db'
      ((execBody_modify_task o p msg now db).trans (execModifyTask_err o p msg db db' hres))]
    rw [resolveModifyTask_error o p db db' hres]
    exact fun t' ht' htitle => ⟨t', ht', rfl, htitle⟩
  | ok tid? =>
    cases tid? with
    | none =>
      rw [execute_action_o_ok o _ now db _
        ((execBody_modify_task o p msg now db).trans (execModifyTask_none o p msg db hres))]
      exact fun t' ht' htitle => ⟨t', ht', rfl, htitle⟩
    | some tid =>
      cases hu : (modifyTaskUpdates p).isEmpty with
      | true =>
        rw [execute_action_o_ok o _ now db _
          ((execBody_modify_task o p msg now db).trans
            (execModifyTask_empty o p msg db tid hres hu))]
        exact fun t' ht' htitle => ⟨t', ht', rfl, htitle⟩
      | false =>
        cases ho : o 1 with
        | true =>
          rw [execute_action_o_err o _ now db db
            ((execBody_modify_task o p msg now db).trans
              (execModifyTask_fault o p msg db tid hres hu ho))]
          exact fun t' ht' htitle => ⟨t', ht', rfl, htitle⟩
        | false =>
          rw [execute_action_o_ok o _ now db _
            ((execBody_modify_task o p msg now db).trans
              (execModifyTask_run o p msg db tid hres hu ho))]
          exact update_task_empty_title db.tasks tid (modifyTaskUpdates p)
            (modifyTaskUpdates_title_ne_empty p)

/-- C10: in MODIFY_TASK and MODIFY_EVENT dispatches every parameter the
branch consults is filtered through Python truthiness — a falsy
supplied value (empty string, 0, or null) behaves exactly as an absent
one, for the id, the title used for fuzzy resolution, and every `new_*`
update slot (so dispatch never writes an empty-string title: any
empty-titled row in the resulting store already existed with that id). -/
theorem C10_falsy_params_excluded (p : Params) (msg now : String) (db : DB)
    (o : Oracle) (a : ActionType)
    (ha : a = ActionType.MODIFY_TASK ∨ a = ActionType.MODIFY_EVENT) :
    execute_action_o o ⟨a, p, msg⟩ now db
        = execute_action_o o ⟨a, normParams p, msg⟩ now db ∧
    ∀ t' ∈ (execute_action_o o ⟨a, p, msg⟩ now db).2.tasks,
      t'.title = "" → ∃ u ∈ db.tasks, u.id = t'.id ∧ u.title = "" := by
  rcases ha with rfl | rfl
  · refine ⟨?_, execute_modify_task_empty_title o p msg now db⟩
    simp only [execute_action_o, execBody, execModifyTask_norm]
  · refine ⟨?_, ?_⟩
    · simp only [execute_action_o, execBody, execModifyEvent_norm]
    · intro t' ht' htitle
      rw [execute_modify_event_tasks o p msg now db] at ht'
      exact ⟨t', ht', rfl, htitle⟩

/-- C10 witness: a falsy `new_title` (empty string) together with a
truthy `new_priority` dispatches identically to the bag with
`new_title` absent. -/
theorem C10_falsy_params_excluded_witness :
    execute_action_o noFault
        ⟨ActionType.MODIFY_TASK,
         { task_id := some 1, new_title := some "", new_priority := some "high" }, "m"⟩ "t"
        ⟨[⟨1, "Essay", none, none, "medium", "pending", "c", none⟩], []⟩
      = execute_action_o noFault
          ⟨ActionType.MODIFY_TASK,
           normParams { task_id := some 1, new_title := some "", new_priority := some "high" },
           "m"⟩ "t"
          ⟨[⟨1, "Essay", none, none, "medium", "pending", "c", none⟩], []⟩ :=
  (C10_falsy_params_excluded
      { task_id := some 1, new_title := some "", new_priority := some "high" }
      "m" "t" ⟨[⟨1, "Essay", none, none, "medium", "pending", "c", none⟩], []⟩
      noFault ActionType.MODIFY_TASK (Or.inl rfl)).1

end Dharvis
